import Mathlib

/-!
Verification of the capture → stage → dispatch → extract pipeline of the
honest0 repository, as a shallow embedding in Lean 4.

Every `def` below is translated from the Python source under `src/`:
  * `src/core/capture/memory_box.py`      (staging buffer)
  * `src/core/capture/audio_recorder.py`  (capture controller / finalize path)
  * `src/core/dispatch/llm_dispatcher.py` (dispatch coordinator)
  * `src/interface/overlay.py`            (stream reply extractor)

Python strings are modelled as `List Char`, byte blobs as `List Int`,
rational durations as `ℚ`.  Code that can raise is modelled with `Except`.
Logging calls are dropped except where a claim is about the presence of
the corresponding step (those become explicit effect markers).
-/

namespace Honest0

/-! ### Python-slice and string helpers -/

/-- Python `s[-n:]` on a list: for `n = 0` this is `s[0:]`, i.e. the whole
string (Python `-0 == 0`); for `n > 0` it is the last `min n (length s)`
elements. -/
def pySliceLast (n : Nat) (l : List Char) : List Char :=
  if n = 0 then l else l.drop (l.length - n)

/-- Lowercase every character (Python `str.lower`, ASCII fragment). -/
def toLowerL (l : List Char) : List Char := l.map Char.toLower

/-- True (`leadsWith needle hay`) when `needle` occurs at the head of `hay`. -/
def leadsWith : List Char → List Char → Bool
  | [], _ => true
  | _ :: _, [] => false
  | a :: as, b :: bs => a == b && leadsWith as bs

/-- Python `needle in hay` substring test. -/
def containsL (needle : List Char) : List Char → Bool
  | [] => leadsWith needle []
  | c :: t => leadsWith needle (c :: t) || containsL needle t

/-- Python regex `\s` character class (ASCII fragment). -/
def wsChar (c : Char) : Bool :=
  c == ' ' || c == '\t' || c == '\n' || c == '\r' || c == '\x0b' || c == '\x0c'

/-- Python `str.strip()` with no argument: drop whitespace at both ends. -/
def pyStrip (l : List Char) : List Char :=
  ((l.dropWhile wsChar).reverse.dropWhile wsChar).reverse

/-! ### Staging buffer — `MemoryBox`, src/core/capture/memory_box.py

An image is modelled by its payload tag together with the result of the
Python `isinstance(image_data, Image.Image)` check (`valid`). -/

structure PImage where
  valid : Bool
  tag : Nat
deriving DecidableEq

/-- State of `MemoryBox`: `_audio`, `_images` and the configured
`_max_images` (`settings.get("max_images_stored", 3)`, an arbitrary
integer).  The `threading.Lock` serialises the methods; each method is one
atomic step here. -/
structure MemoryBox where
  audio : Option (List Int)
  images : List PImage
  max_images : Int
deriving DecidableEq

/-- Constructor `MemoryBox.__init__`: no audio, no images. -/
def mkMemoryBox (maxImages : Int) : MemoryBox :=
  { audio := none, images := [], max_images := maxImages }

/-- Method `MemoryBox.set_audio`. -/
def set_audio (b : MemoryBox) (a : List Int) : MemoryBox :=
  { b with audio := some a }

/-- Method `MemoryBox.add_image`: a non-image is rejected (warning only); else if
`len(self._images) >= self._max_images` the oldest image is removed with
`self._images.pop(0)` — which raises `IndexError` on an empty list — and
the new image is appended. -/
def add_image (b : MemoryBox) (img : PImage) : Except Unit MemoryBox :=
  if img.valid = false then .ok b
  else if b.max_images ≤ (b.images.length : Int) then
    match b.images with
    | [] => .error ()
    | _ :: rest => .ok { b with images := rest ++ [img] }
  else .ok { b with images := b.images ++ [img] }

/-- Iterated `add_image` over a list of images (first element added first),
propagating a raised `IndexError`. -/
def addImages (b : MemoryBox) : List PImage → Except Unit MemoryBox
  | [] => .ok b
  | i :: rest =>
    match add_image b i with
    | .ok b1 => addImages b1 rest
    | .error e => .error e

/-- Method `MemoryBox.get_bundle`: read audio and (a copy of) the image list,
no mutation. -/
def get_bundle (b : MemoryBox) : Option (List Int) × List PImage :=
  (b.audio, b.images)

/-- Method `MemoryBox.pop_bundle`: read audio and images and clear both in the
same lock-protected step. -/
def pop_bundle (b : MemoryBox) : (Option (List Int) × List PImage) × MemoryBox :=
  ((b.audio, b.images), { b with audio := none, images := [] })

/-- Method `MemoryBox.clear`. -/
def mbClear (b : MemoryBox) : MemoryBox :=
  { b with audio := none, images := [] }

/-- Last `m` elements of a list. -/
def lastN (m : Nat) (l : List PImage) : List PImage := l.drop (l.length - m)

lemma lastN_cons (m : Nat) (x : PImage) (l : List PImage) (h : m ≤ l.length) :
    lastN m (x :: l) = lastN m l := by
  unfold lastN
  rw [List.length_cons, show l.length + 1 - m = (l.length - m) + 1 by omega,
    List.drop_succ_cons]

theorem add_image_valid_ge_one (b : MemoryBox) (img : PImage)
    (hv : img.valid = true) (hm : 1 ≤ b.max_images) :
    add_image b img =
      (if b.max_images ≤ (b.images.length : Int) then
        .ok { b with images := b.images.tail ++ [img] }
      else .ok { b with images := b.images ++ [img] }) := by
  unfold add_image
  rw [hv]
  simp only [Bool.true_eq_false, if_false]
  split
  · rename_i hle
    match hbi : b.images with
    | [] => simp [hbi] at hle; omega
    | x :: rest => rfl
  · rfl

lemma addImages_lastN (m : Nat) (hm : 1 ≤ m) :
    ∀ (l : List PImage) (b : MemoryBox),
      b.max_images = (m : Int) → b.images.length ≤ m →
      (∀ i, i ∈ l → i.valid = true) →
      addImages b l = .ok { b with images := lastN m (b.images ++ l) } := by
  intro l
  induction l with
  | nil =>
    intro b hbm hlen _
    simp only [addImages, List.append_nil]
    have : lastN m b.images = b.images := by
      unfold lastN
      have : b.images.length - m = 0 := by omega
      rw [this, List.drop_zero]
    rw [this]
  | cons i rest ih =>
    intro b hbm hlen hval
    have hv : i.valid = true := hval i (List.mem_cons_self i rest)
    have hstep := add_image_valid_ge_one b i hv (by rw [hbm]; exact_mod_cast hm)
    by_cases hfull : b.images.length = m
    · -- at capacity: evict index 0, then append
      have hcond : b.max_images ≤ (b.images.length : Int) := by
        rw [hbm, hfull]
      simp only [addImages]
      rw [hstep, if_pos hcond]
      show addImages { b with images := b.images.tail ++ [i] } rest = _
      have hne : b.images ≠ [] := by
        intro h
        rw [h] at hfull
        simp at hfull
        omega
      have hlen1 : (b.images.tail ++ [i]).length ≤ m := by
        rw [List.length_append, List.length_tail]
        simp only [List.length_cons, List.length_nil]
        omega
      rw [ih { b with images := b.images.tail ++ [i] } hbm hlen1
        (fun j hj => hval j (List.mem_cons_of_mem i hj))]
      congr 2
      -- lastN m (tail b.images ++ [i] ++ rest) = lastN m (b.images ++ i :: rest)
      obtain ⟨x, xs, hbi⟩ : ∃ x xs, b.images = x :: xs := by
        match hbi2 : b.images with
        | [] => exact absurd hbi2 hne
        | y :: ys => exact ⟨y, ys, rfl⟩
      have hxs : xs.length + 1 = m := by
        rw [hbi] at hfull; simpa using hfull
      have hx : m ≤ (xs ++ i :: rest).length := by
        rw [List.length_append, List.length_cons]; omega
      rw [hbi]
      calc lastN m ((x :: xs).tail ++ [i] ++ rest)
          = lastN m (xs ++ i :: rest) := by
            simp only [List.tail_cons, List.append_assoc, List.singleton_append]
        _ = lastN m (x :: (xs ++ i :: rest)) := (lastN_cons m x _ hx).symm
        _ = lastN m ((x :: xs) ++ i :: rest) := by
            simp only [List.cons_append]
    · -- below capacity: plain append
      have hlt : b.images.length < m := by omega
      have hcond : ¬ b.max_images ≤ (b.images.length : Int) := by
        rw [hbm]; exact_mod_cast Nat.not_le.mpr hlt
      simp only [addImages]
      rw [hstep, if_neg hcond]
      show addImages { b with images := b.images ++ [i] } rest = _
      have hlen1 : (b.images ++ [i]).length ≤ m := by simp; omega
      rw [ih { b with images := b.images ++ [i] } hbm hlen1
        (fun j hj => hval j (List.mem_cons_of_mem i hj))]
      simp

/-- C3: from a fresh box of capacity `m ≥ 1`, feeding any list of valid
images never lets the stored list exceed `m` elements after any operation,
and feeding `m + k` images leaves exactly the last `m` in insertion order
(oldest evicted first). -/
theorem addImage_fifo_bound (m k : Nat) (hm : 1 ≤ m) (l : List PImage)
    (hval : ∀ i, i ∈ l → i.valid = true) (hlen : l.length = m + k) :
    addImages (mkMemoryBox (m : Int)) l = .ok { mkMemoryBox (m : Int) with images := l.drop k } ∧
    (∀ p q : List PImage, l = p ++ q →
      ∃ b1, addImages (mkMemoryBox (m : Int)) p = .ok b1 ∧ b1.images.length ≤ m) := by
  constructor
  · have := addImages_lastN m hm l (mkMemoryBox (m : Int)) rfl (by simp [mkMemoryBox]) hval
    rw [this]
    congr 2
    unfold lastN
    simp [mkMemoryBox, hlen]
  · intro p q hpq
    have hvp : ∀ i, i ∈ p → i.valid = true := by
      intro i hi
      exact hval i (by rw [hpq]; exact List.mem_append_left q hi)
    have := addImages_lastN m hm p (mkMemoryBox (m : Int)) rfl (by simp [mkMemoryBox]) hvp
    refine ⟨_, this, ?_⟩
    simp only [mkMemoryBox, lastN, List.nil_append, List.length_drop]
    omega

/-- Witness for C3 at a concrete input: capacity 2, four valid images. -/
theorem addImage_fifo_bound_witness :
    (1 ≤ 2 ∧ (∀ i, i ∈ [PImage.mk true 0, PImage.mk true 1, PImage.mk true 2, PImage.mk true 3] → i.valid = true) ∧
      ([PImage.mk true 0, PImage.mk true 1, PImage.mk true 2, PImage.mk true 3].length = 2 + 2)) ∧
    addImages (mkMemoryBox 2) [PImage.mk true 0, PImage.mk true 1, PImage.mk true 2, PImage.mk true 3] =
      .ok { mkMemoryBox 2 with images := [PImage.mk true 0, PImage.mk true 1, PImage.mk true 2, PImage.mk true 3].drop 2 } := by
  refine ⟨⟨by decide, by decide, by decide⟩, ?_⟩
  exact (addImage_fifo_bound 2 2 (by decide) _ (by decide) (by decide)).1

/-- C4: `pop_bundle` returns the staged audio and images and clears both in
one step, so `get_bundle` right after `pop_bundle` is always the empty
bundle, and what `pop_bundle` handed out is exactly what `get_bundle`
would have shown. -/
theorem pop_bundle_exactly_once (b : MemoryBox) :
    get_bundle (pop_bundle b).2 = (none, []) ∧ (pop_bundle b).1 = get_bundle b := by
  constructor <;> rfl

/-- C10: with capacity `≤ 0`, the first `add_image` on a fresh box with a
valid image raises `IndexError` (`pop` from an empty list); with capacity
`≥ 1`, `add_image` never raises on a valid image, whatever the current
image list. -/
theorem addImage_zero_capacity_raises (m : Int) (l : List PImage) (img : PImage)
    (hv : img.valid = true) :
    (m ≤ 0 ∧ l = [] → add_image { audio := none, images := l, max_images := m } img = .error ()) ∧
    (1 ≤ m → ∃ b1, add_image { audio := none, images := l, max_images := m } img = .ok b1) := by
  constructor
  · rintro ⟨hm, rfl⟩
    unfold add_image
    rw [hv]
    simp only [Bool.true_eq_false, if_false]
    rw [if_pos (by simpa using hm)]
  · intro hm
    rw [add_image_valid_ge_one _ img hv hm]
    split <;> exact ⟨_, rfl⟩

/-- Witness for C10: capacity 0 raises on the first valid image. -/
theorem addImage_zero_capacity_raises_witness :
    (PImage.mk true 7).valid = true ∧
    (((0 : Int) ≤ 0 ∧ ([] : List PImage) = [] →
      add_image { audio := none, images := [], max_images := 0 } (PImage.mk true 7) = .error ()) ∧
    ((1 : Int) ≤ 0 → ∃ b1, add_image { audio := none, images := [], max_images := 0 } (PImage.mk true 7) = .ok b1)) :=
  ⟨rfl, addImage_zero_capacity_raises 0 [] (PImage.mk true 7) rfl⟩

/-! ### Capture controller — `AudioRecorder`, src/core/capture/audio_recorder.py

The finalize/stop paths are embedded over the fields they read and write.
Audio frames are sample lists; `np.concatenate` is `List.flatten`; the WAV
encoding written to disk and handed to the staging buffer is modelled by
the concatenated sample list itself.  Timing fields (`last_speech_time`,
`_was_speaking`, `last_vad_action_time`) do not enter any claim and are
elided.  Externally visible actions are collected as an effect list. -/

inductive RState
  | idle
  | recording
  | paused
deriving DecidableEq

/-- Configuration read once at construction (`sample_rate`,
`backchannel_duration_threshold`). -/
structure RecorderConfig where
  sample_rate : ℚ
  backchannel_duration_threshold : ℚ

/-- Mutable fields of `AudioRecorder` touched by the finalize and stop
paths, plus the shared `MemoryBox`. -/
structure RecorderState where
  state : RState
  is_recording : Bool
  audio_data : List (List Int)
  audio_already_saved : Bool
  anti_backchannel_enabled : Bool
  llm_interaction_allowed : Bool
  utterance_id : Nat
  box : MemoryBox
deriving DecidableEq

/-- Observable actions of the finalize/stop paths, in program order:
`enteredFinalize` marks entry into `_handle_completed_utterance` (its
entry log line), `persistedFile` the `sf.write` to disk, `setAudioToBox`
the `memory_box.set_audio` call, `dispatchedBundle` the
`executor.submit(_dispatch_bundle_to_llm_thread, ...)` with the popped
bundle, and the two `gui_listener.update` notifications. -/
inductive REffect
  | enteredFinalize
  | persistedFile (samples : List Int)
  | setAudioToBox
  | dispatchedBundle (audio : Option (List Int)) (images : List PImage)
  | guiBundleSent
  | guiRecordingStopped
deriving DecidableEq

def isEnteredFinalize : REffect → Bool
  | .enteredFinalize => true
  | _ => false

/-- Method `AudioRecorder._handle_completed_utterance`: skip if the
per-utterance saved flag is set or the buffer is empty; discard short
utterances when the anti-backchannel filter is on (clearing only the
in-progress buffer); otherwise persist to disk, set the saved flag, bump
the utterance id, stage the encoded audio via `set_audio`, and — only if
LLM interaction is allowed — `pop_bundle` and dispatch it, then clear the
in-progress buffer. -/
def handle_completed_utterance (cfg : RecorderConfig) (s : RecorderState) :
    RecorderState × List REffect :=
  if s.audio_already_saved = true then (s, [.enteredFinalize])
  else if s.audio_data = [] then (s, [.enteredFinalize])
  else if s.anti_backchannel_enabled = true ∧
      (s.audio_data.flatten.length : ℚ) / cfg.sample_rate
        < cfg.backchannel_duration_threshold then
    ({ s with audio_data := [] }, [.enteredFinalize])
  else if s.llm_interaction_allowed = true then
    ({ s with audio_already_saved := true, utterance_id := s.utterance_id + 1,
              box := (pop_bundle (set_audio s.box s.audio_data.flatten)).2,
              audio_data := [] },
     [.enteredFinalize, .persistedFile s.audio_data.flatten, .setAudioToBox,
      .dispatchedBundle (pop_bundle (set_audio s.box s.audio_data.flatten)).1.1
        (pop_bundle (set_audio s.box s.audio_data.flatten)).1.2,
      .guiBundleSent])
  else
    ({ s with audio_already_saved := true, utterance_id := s.utterance_id + 1,
              box := set_audio s.box s.audio_data.flatten, audio_data := [] },
     [.enteredFinalize, .persistedFile s.audio_data.flatten, .setAudioToBox])

/-- Method `AudioRecorder.stop_recording`: force `is_recording := false`
and `state := idle`, notify the GUI.  It does not itself finalize. -/
def stop_recording (s : RecorderState) : RecorderState × List REffect :=
  ({ s with is_recording := false, state := .idle }, [.guiRecordingStopped])

/-- Method `AudioRecorder.clear_state`: reset recording flags and buffers
(the elided timing fields are also reset there). -/
def clear_state (s : RecorderState) : RecorderState :=
  { s with is_recording := false, state := .idle, audio_data := [],
           audio_already_saved := false }

/-- Epilogue of the `_record` capture-thread loop (audio_recorder.py lines
173-177): once `is_recording` is false the loop exits and, if the buffered
audio is non-empty and the state is idle, the thread runs
`_handle_completed_utterance()` followed by `clear_state()`. -/
def record_thread_exit (cfg : RecorderConfig) (s : RecorderState) :
    RecorderState × List REffect :=
  if s.audio_data ≠ [] ∧ s.state = RState.idle then
    (clear_state (handle_completed_utterance cfg s).1,
     (handle_completed_utterance cfg s).2)
  else (s, [])

/-- The user-visible stop operation: `stop_recording()` unblocks the
capture thread (its `while self.is_recording` guard fails), whose exit
path then finalizes.  This is the sequential composition of the two. -/
def stop_then_capture_exit (cfg : RecorderConfig) (s : RecorderState) :
    RecorderState × List REffect :=
  ((record_thread_exit cfg (stop_recording s).1).1,
   (stop_recording s).2 ++ (record_thread_exit cfg (stop_recording s).1).2)

lemma handle_completed_utterance_saved (cfg : RecorderConfig) (s : RecorderState)
    (h : s.audio_already_saved = true) :
    handle_completed_utterance cfg s = (s, [.enteredFinalize]) := by
  unfold handle_completed_utterance
  rw [if_pos h]

/-- Claim C2: while the anti-backchannel filter is enabled, a completed
utterance strictly shorter than the threshold is discarded by the finalize
path: the only action is the entry log, so nothing is persisted, the
staging buffer is untouched, no dispatch happens, and the in-progress
audio buffer is cleared. -/
theorem backchannel_discard (cfg : RecorderConfig) (s : RecorderState)
    (hsaved : s.audio_already_saved = false) (hne : s.audio_data ≠ [])
    (hen : s.anti_backchannel_enabled = true)
    (hdur : (s.audio_data.flatten.length : ℚ) / cfg.sample_rate
      < cfg.backchannel_duration_threshold) :
    handle_completed_utterance cfg s = ({ s with audio_data := [] }, [.enteredFinalize]) := by
  unfold handle_completed_utterance
  rw [if_neg (by rw [hsaved]; simp), if_neg hne, if_pos ⟨hen, hdur⟩]

/-- Witness configuration: sample rate 16000 Hz, backchannel threshold
1.3 s (the shipped defaults). -/
def cfgW : RecorderConfig :=
  { sample_rate := 16000, backchannel_duration_threshold := 13 / 10 }

/-- Witness recorder state: one buffered frame of one sample
(duration 1/16000 s), filter enabled, nothing saved yet. -/
def recW : RecorderState :=
  { state := .recording, is_recording := true, audio_data := [[0]],
    audio_already_saved := false, anti_backchannel_enabled := true,
    llm_interaction_allowed := false, utterance_id := 0, box := mkMemoryBox 3 }

theorem backchannel_discard_witness :
    (recW.audio_already_saved = false ∧ recW.audio_data ≠ [] ∧
     recW.anti_backchannel_enabled = true ∧
     (recW.audio_data.flatten.length : ℚ) / cfgW.sample_rate
       < cfgW.backchannel_duration_threshold) ∧
    handle_completed_utterance cfgW recW
      = ({ recW with audio_data := [] }, [.enteredFinalize]) :=
  ⟨⟨rfl, by decide, rfl, by norm_num [recW, cfgW]⟩,
   backchannel_discard cfgW recW rfl (by decide) rfl (by norm_num [recW, cfgW])⟩

lemma countP_effects_one (cfg : RecorderConfig) (s : RecorderState) :
    ((handle_completed_utterance cfg s).2).countP isEnteredFinalize = 1 := by
  unfold handle_completed_utterance
  split
  · rfl
  · split
    · rfl
    · split
      · rfl
      · split
        · rfl
        · rfl

/-- Claim C5: `stop()` forces the recorder state to Idle, and whenever the
in-progress utterance is non-empty the stop path passes through the
finalize entry (`_handle_completed_utterance`) exactly once before the
operation completes. -/
theorem stop_forces_idle_and_finalizes (cfg : RecorderConfig) (s : RecorderState)
    (_hrec : s.is_recording = true) :
    (stop_then_capture_exit cfg s).1.state = RState.idle ∧
    (s.audio_data ≠ [] →
      ((stop_then_capture_exit cfg s).2.countP isEnteredFinalize = 1)) := by
  constructor
  · unfold stop_then_capture_exit record_thread_exit
    split
    · simp [clear_state]
    · rfl
  · intro hne
    have hpos : (stop_recording s).1.audio_data ≠ [] ∧
        (stop_recording s).1.state = RState.idle := ⟨hne, rfl⟩
    have hev : (stop_then_capture_exit cfg s).2
        = [REffect.guiRecordingStopped]
          ++ (handle_completed_utterance cfg (stop_recording s).1).2 := by
      unfold stop_then_capture_exit record_thread_exit
      rw [if_pos hpos]
      rfl
    rw [hev, List.countP_append, countP_effects_one]
    rfl

theorem stop_forces_idle_and_finalizes_witness :
    recW.is_recording = true ∧
    (stop_then_capture_exit cfgW recW).1.state = RState.idle ∧
    (stop_then_capture_exit cfgW recW).2.countP isEnteredFinalize = 1 :=
  ⟨rfl, (stop_forces_idle_and_finalizes cfgW recW rfl).1,
   (stop_forces_idle_and_finalizes cfgW recW rfl).2 (by decide)⟩

/-- Claim C8: the first successful (non-discarded) finalize sets the
per-utterance saved flag, and a second call to the finalize path before
`clear_state` is skipped: the state is unchanged and the only action is
the entry log — no persistence, no staging write, no dispatch. -/
theorem duplicate_finalize_skipped (cfg : RecorderConfig) (s : RecorderState)
    (hsaved : s.audio_already_saved = false) (hne : s.audio_data ≠ [])
    (hkeep : ¬(s.anti_backchannel_enabled = true ∧
      (s.audio_data.flatten.length : ℚ) / cfg.sample_rate
        < cfg.backchannel_duration_threshold)) :
    (handle_completed_utterance cfg s).1.audio_already_saved = true ∧
    handle_completed_utterance cfg (handle_completed_utterance cfg s).1
      = ((handle_completed_utterance cfg s).1, [.enteredFinalize]) := by
  have h1 : (handle_completed_utterance cfg s).1.audio_already_saved = true := by
    unfold handle_completed_utterance
    rw [if_neg (by rw [hsaved]; simp), if_neg hne, if_neg hkeep]
    split <;> rfl
  exact ⟨h1, handle_completed_utterance_saved cfg _ h1⟩

/-- Witness recorder state taking the persist path: filter disabled. -/
def recW8 : RecorderState :=
  { state := .idle, is_recording := false, audio_data := [[0]],
    audio_already_saved := false, anti_backchannel_enabled := false,
    llm_interaction_allowed := false, utterance_id := 0, box := mkMemoryBox 3 }

theorem duplicate_finalize_skipped_witness :
    (recW8.audio_already_saved = false ∧ recW8.audio_data ≠ [] ∧
     ¬(recW8.anti_backchannel_enabled = true ∧
       (recW8.audio_data.flatten.length : ℚ) / cfgW.sample_rate
         < cfgW.backchannel_duration_threshold)) ∧
    ((handle_completed_utterance cfgW recW8).1.audio_already_saved = true ∧
     handle_completed_utterance cfgW (handle_completed_utterance cfgW recW8).1
       = ((handle_completed_utterance cfgW recW8).1, [.enteredFinalize])) :=
  ⟨⟨rfl, by decide, by decide⟩,
   duplicate_finalize_skipped cfgW recW8 rfl (by decide) (by decide)⟩

/-! ### Dispatch coordinator — `LLMDispatcher`, src/core/dispatch/llm_dispatcher.py

The backend generator (`provider.send_multimodal`) is a lazy sequence of
text chunks; a mid-stream failure is the chunks produced before the
exception together with the exception message.  The GUI listener is
modelled as present (`gui_listener` non-None); each `update` call becomes
an event in an ordered list.  Text is `String` here since only
concatenation is involved. -/

structure Backend where
  chunks : List String
  err : Option String

/-- Overlay events emitted by `send_bundle` (`OverlayEvent.STREAM_START`,
`STREAM_CHUNK`, `STREAM_END` with their payloads). -/
inductive OverlayEventM
  | stream_start (request_id : String)
  | stream_chunk (text : String) (request_id : String)
  | stream_end (request_id : String)
deriving DecidableEq

/-- Method `LLMDispatcher.send_bundle` for one request id: emit
STREAM_START, then per backend chunk concatenate it into `full_response`
and emit STREAM_CHUNK; if the backend raises, catch it and emit one more
STREAM_CHUNK carrying the error annotation (not concatenated into
`full_response`); in the `finally` block emit STREAM_END and return
`full_response`. -/
def send_bundle (request_id : String) (b : Backend) : String × List OverlayEventM :=
  (String.join b.chunks,
   [.stream_start request_id]
     ++ b.chunks.map (fun c => .stream_chunk c request_id)
     ++ (match b.err with
         | some e => [.stream_chunk ("\n\nError: " ++ e ++ "\n") request_id]
         | none => [])
     ++ [.stream_end request_id])

/-- Claim C6: when the backend raises after producing some chunks, the
dispatcher keeps the partial text accumulated so far as the returned full
response, forwards an error-annotation chunk to the sink under the same
request id, and still emits the terminal STREAM_END for that request id as
the last event. -/
theorem failed_dispatch_terminates (request_id : String) (b : Backend) (e : String)
    (he : b.err = some e) :
    (send_bundle request_id b).1 = String.join b.chunks ∧
    (.stream_chunk ("\n\nError: " ++ e ++ "\n") request_id) ∈ (send_bundle request_id b).2 ∧
    (send_bundle request_id b).2.getLast? = some (.stream_end request_id) := by
  refine ⟨rfl, ?_, ?_⟩
  · unfold send_bundle
    rw [he]
    simp
  · unfold send_bundle
    rw [he]
    rw [List.getLast?_append, List.getLast?_append]
    rfl

theorem failed_dispatch_terminates_witness :
    (Backend.mk ["partial "] (some "boom")).err = some "boom" ∧
    ((send_bundle "rid1" (Backend.mk ["partial "] (some "boom"))).1
        = String.join ["partial "] ∧
     (OverlayEventM.stream_chunk ("\n\nError: " ++ "boom" ++ "\n") "rid1")
        ∈ (send_bundle "rid1" (Backend.mk ["partial "] (some "boom"))).2 ∧
     (send_bundle "rid1" (Backend.mk ["partial "] (some "boom"))).2.getLast?
        = some (.stream_end "rid1")) :=
  ⟨rfl, failed_dispatch_terminates "rid1" (Backend.mk ["partial "] (some "boom")) "boom" rfl⟩

/-- Claim C9: when the backend raises mid-stream, the string returned by
`send_bundle` is exactly the concatenation of the chunks received before
the exception — identical to what a non-raising backend with the same
chunks would return — so the forwarded error annotation is not part of
the returned full response. -/
theorem failed_dispatch_return_is_partial_text (request_id : String) (b : Backend)
    (e : String) (_he : b.err = some e) :
    (send_bundle request_id b).1 = String.join b.chunks ∧
    (send_bundle request_id b).1
      = (send_bundle request_id (Backend.mk b.chunks none)).1 :=
  ⟨rfl, rfl⟩

theorem failed_dispatch_return_is_partial_text_witness :
    (Backend.mk ["a", "b"] (some "oops")).err = some "oops" ∧
    ((send_bundle "rid2" (Backend.mk ["a", "b"] (some "oops"))).1
        = String.join ["a", "b"] ∧
     (send_bundle "rid2" (Backend.mk ["a", "b"] (some "oops"))).1
        = (send_bundle "rid2" (Backend.mk ["a", "b"] none)).1) :=
  ⟨rfl, failed_dispatch_return_is_partial_text "rid2"
    (Backend.mk ["a", "b"] (some "oops")) "oops" rfl⟩

/-! ### Stream reply extractor — `Overlay`, src/interface/overlay.py

Per-session parse state and the two handlers `_handle_stream_chunk` /
`_handle_stream_end`.  The Tk text widget is modelled by the
concatenation of the chunks inserted during streaming (`forwarded`) and
by the final body computed at stream end (the timestamp footer appended
after the body is elided).  `transitions` counts the
Scanning→AcceptingReply transitions (`accepting_reply_stream` being set
by the marker branch).  The two regexes are compiled into executable
matchers below; the relevant character classes are ASCII. -/

/-- Regex fragment `[A-Z0-9\- ]` under `re.IGNORECASE`. -/
def sectionChar (c : Char) : Bool :=
  c.isUpper || c.isLower || c.isDigit || c == '-' || c == ' '

/-- True when the text begins with two asterisks. -/
def starsClose : List Char → Bool
  | '*' :: '*' :: _ => true
  | _ => false

/-- Matches `[A-Z0-9\- ]+\*\*` at the head of the text (existence of a
backtracking match). -/
def runMatch : List Char → Bool
  | [] => false
  | c :: t => sectionChar c && (starsClose t || runMatch t)

/-- Matches `\*\*[A-Z0-9\- ]+\*\*` at the head of the text. -/
def sectionHere : List Char → Bool
  | '*' :: '*' :: t => runMatch t
  | _ => false

/-- Search for `(?im)^\*\*[A-Z0-9\- ]+\*\*` (re.search): index of the
leftmost line-start position where the section pattern matches.  `idx` is
the absolute index of the current head, `atStart` whether that position
follows a newline or is the start of the text. -/
def sectionSearchA : Nat → Bool → List Char → Option Nat
  | _, _, [] => none
  | idx, atStart, c :: t =>
    if atStart && sectionHere (c :: t) then some idx
    else sectionSearchA (idx + 1) (c == '\n') t

/-- Python `str.strip("* ")`: drop asterisks and spaces at both ends
(used to derive the regex cores from the configured markers). -/
def stripStarSp (m : List Char) : List Char :=
  ((m.dropWhile (fun c => c == '*' || c == ' ')).reverse.dropWhile
    (fun c => c == '*' || c == ' ')).reverse

/-- Case-insensitive literal match of `core` at the head; returns the
remaining text on success. -/
def matchCI : List Char → List Char → Option (List Char)
  | [], l => some l
  | _ :: _, [] => none
  | a :: as, b :: bs => if a.toLower == b.toLower then matchCI as bs else none

/-- Greedy `\s*` (the following regex atoms cannot start with whitespace,
so maximal munch is the only viable match). -/
def skipWs : List Char → List Char
  | [] => []
  | c :: t => if wsChar c then skipWs t else c :: t

/-- Matches `\s*\*\*` at the head; returns the remaining text. -/
def replyTail (t : List Char) : Option (List Char) :=
  match skipWs t with
  | '*' :: '*' :: t4 => some t4
  | _ => none

/-- Tries the alternation `(?:core1|core2|...)` followed by `\s*\*\*` in
listed order, as the regex engine does. -/
def tryCores : List (List Char) → List Char → Option (List Char)
  | [], _ => none
  | core :: cs, t1 =>
    match matchCI core t1 with
    | some t2 =>
      match replyTail t2 with
      | some t4 => some t4
      | none => tryCores cs t1
    | none => tryCores cs t1

/-- Matches the compiled reply-marker pattern
`\*\*\s*(?:core1|...)\s*\*\*` at the head; returns the match length. -/
def replyAt (cores : List (List Char)) (l : List Char) : Option Nat :=
  match l with
  | '*' :: '*' :: t =>
    match tryCores cores (skipWs t) with
    | some t4 => some (l.length - t4.length)
    | none => none
  | _ => none

/-- Search for `(?im)^\*\*\s*(?:...)\s*\*\*`: absolute end index
(`match.end()`) of the leftmost line-start match. -/
def replySearchA (cores : List (List Char)) : Nat → Bool → List Char → Option Nat
  | _, _, [] => none
  | idx, atStart, c :: t =>
    match (if atStart then replyAt cores (c :: t) else none) with
    | some len => some (idx + len)
    | none => replySearchA cores (idx + 1) (c == '\n') t

/-! #### textwrap.dedent -/

/-- Split on newline characters (Python `str.split("\n")`). -/
def splitNl : List Char → List (List Char)
  | [] => [[]]
  | '\n' :: t => [] :: splitNl t
  | c :: t =>
    match splitNl t with
    | [] => [[c]]
    | l :: ls => (c :: l) :: ls

/-- Rejoin lines with newlines. -/
def joinNl (ls : List (List Char)) : List Char := (ls.intersperse ['\n']).flatten

/-- Normalize a whitespace-only line to empty
(`_whitespace_only_re.sub('', text)`). -/
def blankFix (line : List Char) : List Char :=
  if line ≠ [] ∧ line.all (fun c => c == ' ' || c == '\t') then [] else line

/-- Leading `[ \t]*` run of a line. -/
def indentOf (line : List Char) : List Char :=
  line.takeWhile (fun c => c == ' ' || c == '\t')

/-- The line has a character outside `[ \t]`
(`_leading_whitespace_re` requires a following non-whitespace char). -/
def hasContent (line : List Char) : Bool :=
  line.any (fun c => !(c == ' ' || c == '\t'))

/-- Longest common prefix of two strings (the margin-merging loop of
`textwrap.dedent` computes exactly this). -/
def commonPre : List Char → List Char → List Char
  | a :: as, b :: bs => if a == b then a :: commonPre as bs else []
  | _, _ => []

/-- Common indentation margin over the lines that have content. -/
def marginOf (lines : List (List Char)) : Option (List Char) :=
  lines.foldl
    (fun m line =>
      if hasContent line then
        match m with
        | none => some (indentOf line)
        | some mm => some (commonPre mm (indentOf line))
      else m)
    none

/-- Remove the margin from a line that starts with it
(`re.sub(r'(?m)^' + margin, '', text)`). -/
def dropMargin (m line : List Char) : List Char :=
  if leadsWith m line then line.drop m.length else line

/-- Python `textwrap.dedent` (CPython implementation: blank
whitespace-only lines, compute the common margin of the remaining lines,
strip it from every line that carries it). -/
def dedentL (l : List Char) : List Char :=
  let ls := (splitNl l).map blankFix
  match marginOf ls with
  | none => joinNl ls
  | some [] => joinNl ls
  | some m => joinNl (ls.map (dropMargin m))

/-! #### The overlay session -/

/-- Overlay configuration read at construction:
`max_full_buffer_size` (default 51200), `reply_markers`
(default `["**REPLY**", "**ANSWER**"]`), `show_raw_on_missing_marker`
(default true). -/
structure OverlayConfig where
  max_full_buffer_size : Nat
  reply_markers_list : List (List Char)
  show_raw_on_missing_marker : Bool

/-- Per-stream parse state, reset by `_handle_stream_start`.  `forwarded`
is the concatenation of the chunks inserted into the text widget during
streaming; `transitions` counts Scanning→AcceptingReply transitions. -/
structure StreamState where
  full_buffer : List Char
  last_n_chars_buffer : List Char
  reply_seen : Bool
  accepting_reply_stream : Bool
  forwarded : List Char
  transitions : Nat
deriving DecidableEq

/-- State installed by `_handle_stream_start`. -/
def init_stream_state : StreamState :=
  { full_buffer := [], last_n_chars_buffer := [], reply_seen := false,
    accepting_reply_stream := false, forwarded := [], transitions := 0 }

/-- Handler `_handle_stream_chunk`: append the chunk to the capped raw
buffer; build `combined_text` from the carried window (kept verbatim,
not lowercased) plus the lowercased chunk; while no marker has been seen,
any configured marker (lowercased) occurring in `combined_text` enters
AcceptingReply and consumes the whole chunk silently; otherwise a chunk
outside AcceptingReply is skipped; a chunk matching the section pattern
leaves AcceptingReply without being forwarded; any other chunk is
forwarded verbatim.  Every path stores the last 50 chars of the raw chunk
as the next carried window. -/
def handle_stream_chunk (cfg : OverlayConfig) (s : StreamState) (c : List Char) :
    StreamState :=
  if s.reply_seen = false ∧
      cfg.reply_markers_list.any
        (fun m => containsL (toLowerL m) (s.last_n_chars_buffer ++ toLowerL c)) = true then
    { s with
      full_buffer := pySliceLast cfg.max_full_buffer_size (s.full_buffer ++ c),
      reply_seen := true, accepting_reply_stream := true,
      last_n_chars_buffer := pySliceLast 50 c,
      transitions := s.transitions + 1 }
  else if s.accepting_reply_stream = false then
    { s with
      full_buffer := pySliceLast cfg.max_full_buffer_size (s.full_buffer ++ c),
      last_n_chars_buffer := pySliceLast 50 c }
  else if (sectionSearchA 0 true c).isSome = true then
    { s with
      full_buffer := pySliceLast cfg.max_full_buffer_size (s.full_buffer ++ c),
      accepting_reply_stream := false,
      last_n_chars_buffer := pySliceLast 50 c }
  else
    { s with
      full_buffer := pySliceLast cfg.max_full_buffer_size (s.full_buffer ++ c),
      forwarded := s.forwarded ++ c,
      last_n_chars_buffer := pySliceLast 50 c }

/-- End index of the first line-anchored reply-marker match in a buffer,
using cores derived from the configured markers by `strip("* ")`. -/
def reply_marker_end (cfg : OverlayConfig) (l : List Char) : Option Nat :=
  replySearchA (cfg.reply_markers_list.map stripStarSp) 0 true l

/-- Handler `_handle_stream_end`: returns the body shown in the text
widget (before the appended reply-number/timestamp footer).  If no marker
was seen during streaming, re-scan the full buffer with the line-anchored
regex; if still unseen, either show the dedented/stripped raw buffer
(fallback enabled) or nothing; if seen, extract the text between the
marker match end and the next section marker (or the end of the buffer),
strip, dedent and strip again. -/
def handle_stream_end (cfg : OverlayConfig) (s : StreamState) : List Char :=
  let seen1 := s.reply_seen || (reply_marker_end cfg s.full_buffer).isSome
  if seen1 = false ∧ cfg.show_raw_on_missing_marker = true then
    pyStrip (dedentL s.full_buffer)
  else if seen1 = true then
    match reply_marker_end cfg s.full_buffer with
    | some start =>
      let endIdx :=
        match sectionSearchA 0 true (s.full_buffer.drop start) with
        | some i => i + start
        | none => s.full_buffer.length
      pyStrip (dedentL (pyStrip ((s.full_buffer.take endIdx).drop start)))
    | none => pyStrip (dedentL s.full_buffer)
  else []

/-! #### Buffer-cap facts (claim C7) -/

lemma pySliceLast_append (n : Nat) (a b : List Char) :
    pySliceLast n (pySliceLast n a ++ b) = pySliceLast n (a ++ b) := by
  unfold pySliceLast
  by_cases h : n = 0
  · simp [h]
  · simp only [if_neg h]
    by_cases hle : a.length ≤ n
    · have h0 : a.length - n = 0 := by omega
      rw [h0, List.drop_zero]
    · have h1 : a.drop (a.length - n) ++ b = (a ++ b).drop (a.length - n) :=
        (List.drop_append_of_le_length (by omega)).symm
      rw [h1, List.drop_drop]
      congr 1
      rw [List.length_drop, List.length_append]
      omega

lemma pySliceLast_self (n : Nat) (a : List Char) :
    pySliceLast n (pySliceLast n a) = pySliceLast n a := by
  have h := pySliceLast_append n a []
  simpa using h

lemma pySliceLast_length_le (n : Nat) (hpos : 0 < n) (a : List Char) :
    (pySliceLast n a).length ≤ n := by
  unfold pySliceLast
  rw [if_neg (by omega), List.length_drop]
  omega

lemma handle_stream_chunk_full_buffer (cfg : OverlayConfig) (s : StreamState)
    (c : List Char) :
    (handle_stream_chunk cfg s c).full_buffer
      = pySliceLast cfg.max_full_buffer_size (s.full_buffer ++ c) := by
  unfold handle_stream_chunk
  split
  · rfl
  · split
    · rfl
    · split
      · rfl
      · rfl

lemma foldl_full_buffer (cfg : OverlayConfig) :
    ∀ (chunks : List (List Char)) (s : StreamState),
      pySliceLast cfg.max_full_buffer_size s.full_buffer = s.full_buffer →
      ((chunks.foldl (handle_stream_chunk cfg) s).full_buffer)
        = pySliceLast cfg.max_full_buffer_size (s.full_buffer ++ chunks.flatten) := by
  intro chunks
  induction chunks with
  | nil =>
    intro s hs
    simp only [List.foldl_nil, List.flatten_nil, List.append_nil]
    exact hs.symm
  | cons c rest ih =>
    intro s hs
    simp only [List.foldl_cons, List.flatten_cons]
    rw [ih (handle_stream_chunk cfg s c)
        (by rw [handle_stream_chunk_full_buffer, pySliceLast_self]),
      handle_stream_chunk_full_buffer, pySliceLast_append, List.append_assoc]

/-- Configuration with a zero cap (allowed by the settings schema, which
only requires `max_full_buffer_size >= 0`). -/
def cfgZero : OverlayConfig :=
  { max_full_buffer_size := 0, reply_markers_list := [("**REPLY**").data],
    show_raw_on_missing_marker := true }

/-- Claim C7 counterexample: with a configured cap of 0 the Python slice
`full_buffer[-0:]` is the whole string, so one appended character already
exceeds the cap — the buffer is never truncated. -/
theorem buffer_cap_counterexample :
    ¬ (((([("a").data]).foldl (handle_stream_chunk cfgZero) init_stream_state).full_buffer).length
        ≤ cfgZero.max_full_buffer_size) := by
  decide

/-- Claim C7 (amended): after any sequence of chunk appends the raw
buffer is exactly the Python slice `[-cap:]` of the concatenation of all
chunks (oldest characters dropped), and therefore, whenever the
configured cap is positive, its length never exceeds the cap. -/
theorem buffer_cap_amended (cfg : OverlayConfig) (chunks : List (List Char)) :
    ((chunks.foldl (handle_stream_chunk cfg) init_stream_state).full_buffer)
      = pySliceLast cfg.max_full_buffer_size chunks.flatten ∧
    (0 < cfg.max_full_buffer_size →
      ((chunks.foldl (handle_stream_chunk cfg) init_stream_state).full_buffer).length
        ≤ cfg.max_full_buffer_size) := by
  have h := foldl_full_buffer cfg chunks init_stream_state
    (by
      unfold init_stream_state pySliceLast
      split
      · rfl
      · exact List.drop_nil)
  have h2 : ((chunks.foldl (handle_stream_chunk cfg) init_stream_state).full_buffer)
      = pySliceLast cfg.max_full_buffer_size chunks.flatten := by
    rw [h]
    rfl
  refine ⟨h2, fun hpos => ?_⟩
  rw [h2]
  exact pySliceLast_length_le _ hpos _

/-- Configuration with cap 5 for the concrete C7 witness. -/
def cfg7 : OverlayConfig :=
  { max_full_buffer_size := 5, reply_markers_list := [("**REPLY**").data],
    show_raw_on_missing_marker := true }

theorem buffer_cap_amended_witness :
    (((([("abcd").data, ("efg").data]).foldl (handle_stream_chunk cfg7) init_stream_state).full_buffer)
        = pySliceLast cfg7.max_full_buffer_size ([("abcd").data, ("efg").data]).flatten) ∧
    0 < cfg7.max_full_buffer_size ∧
    ((([("abcd").data, ("efg").data]).foldl (handle_stream_chunk cfg7) init_stream_state).full_buffer).length
        ≤ cfg7.max_full_buffer_size :=
  ⟨(buffer_cap_amended cfg7 [("abcd").data, ("efg").data]).1, by decide,
   (buffer_cap_amended cfg7 [("abcd").data, ("efg").data]).2 (by decide)⟩

/-! #### Scenario C (claim C1) -/

/-- Scenario C configuration: marker `REPLY`, the default cap and the
default raw-buffer fallback. -/
def scenarioCfg : OverlayConfig :=
  { max_full_buffer_size := 51200, reply_markers_list := [("**REPLY**").data],
    show_raw_on_missing_marker := true }

/-- The Scenario C chunk sequence, splitting the marker inside itself. -/
def scenarioChunks : List (List Char) :=
  [("foo ").data, ("**RE").data, ("PLY**\nHello ").data, ("world\n**END**").data]

/-- Claim C1 counterexample: feeding the Scenario C chunks does not
trigger exactly one Scanning→AcceptingReply transition (it triggers
none: the carried window keeps the raw "**RE" while the marker test
lowercases only the new chunk), and the text forwarded to the sink is
not "Hello world\n" (nothing is forwarded). -/
theorem marker_split_scenario_counterexample :
    ¬ ((scenarioChunks.foldl (handle_stream_chunk scenarioCfg) init_stream_state).transitions = 1) ∧
    ¬ ((scenarioChunks.foldl (handle_stream_chunk scenarioCfg) init_stream_state).forwarded
        = ("Hello world\n").data) := by
  decide

/-- Claim C1 (amended): marker detection is not chunk-boundary
independent.  On the Scenario C chunks the session performs zero
Scanning→AcceptingReply transitions, forwards nothing during streaming
and never sets `reply_seen`; at stream end the line-anchored re-scan also
fails (the marker sits mid-line in "foo **REPLY**"), so the fallback
displays the whole raw buffer.  Feeding the identical text as a single
chunk triggers exactly one transition, exhibiting the dependence on the
split. -/
theorem marker_split_scenario_amended :
    (scenarioChunks.foldl (handle_stream_chunk scenarioCfg) init_stream_state).transitions = 0 ∧
    (scenarioChunks.foldl (handle_stream_chunk scenarioCfg) init_stream_state).forwarded = [] ∧
    (scenarioChunks.foldl (handle_stream_chunk scenarioCfg) init_stream_state).reply_seen = false ∧
    handle_stream_end scenarioCfg
        (scenarioChunks.foldl (handle_stream_chunk scenarioCfg) init_stream_state)
      = ("foo **REPLY**\nHello world\n**END**").data ∧
    (([("foo **REPLY**\nHello world\n**END**").data]).foldl
        (handle_stream_chunk scenarioCfg) init_stream_state).transitions = 1 := by
  decide

end Honest0
